import Mathlib

/-!
Shallow embedding of `src/app.py` (a restricted-environment bootstrap
script) and verification of its specification claims.

External effects (subprocess results, filesystem probes, downloads) are
modelled by oracle functions supplied as explicit parameters; the control
flow of each Python function is translated faithfully.
-/

set_option autoImplicit false

namespace HostNew

/-- Outcome of one `subprocess.run` invocation inside `run_command`
(src/app.py lines 16-37): the process may exit zero with some stdout,
exit non-zero, raise `TimeoutExpired`, or raise some other exception. -/
inductive Outcome where
  | success (out : String)
  | fail
  | timeout
  | exc
deriving DecidableEq

/-- Whether the outcome is the exit-zero case. -/
def Outcome.isSuccess : Outcome → Bool
  | .success _ => true
  | _ => false

/-- Observable events of a `run_command` call: executing the command for
attempt `i` (0-based), or sleeping the fixed 2-second backoff. -/
inductive REvent where
  | exec (attempt : Nat)
  | sleep2
deriving DecidableEq

/-- Whether an event is a command execution. -/
def REvent.isExec : REvent → Bool
  | .exec _ => true
  | _ => false

/-- Result of `run_command`: the returned pair plus the event trace. -/
structure RunResult where
  success : Bool
  stdout : String
  events : List REvent
deriving DecidableEq

/-- Loop body of `run_command` (src/app.py lines 16-39), structurally
recursive on the number `n` of remaining iterations of
`for attempt in range(retries)`.  On exit code 0 it returns
`(True, stdout)`; on non-zero exit it sleeps 2 seconds when
`attempt < retries - 1`; on `TimeoutExpired` or any other exception it
just proceeds to the next iteration; when iterations are exhausted it
returns `(False, "")`. -/
def run_attempts (outcome : Nat → Outcome) (retries : Nat) : Nat → Nat → RunResult
  | _, 0 => ⟨false, "", []⟩
  | attempt, n + 1 =>
    match outcome attempt with
    | Outcome.success out => ⟨true, out, [REvent.exec attempt]⟩
    | Outcome.fail =>
      let rest := run_attempts outcome retries (attempt + 1) n
      if attempt < retries - 1 then
        ⟨rest.success, rest.stdout, REvent.exec attempt :: REvent.sleep2 :: rest.events⟩
      else
        ⟨rest.success, rest.stdout, REvent.exec attempt :: rest.events⟩
    | Outcome.timeout =>
      let rest := run_attempts outcome retries (attempt + 1) n
      ⟨rest.success, rest.stdout, REvent.exec attempt :: rest.events⟩
    | Outcome.exc =>
      let rest := run_attempts outcome retries (attempt + 1) n
      ⟨rest.success, rest.stdout, REvent.exec attempt :: rest.events⟩

/-- Model of `run_command` (src/app.py lines 14-39): run the attempt loop
starting at attempt 0 with `retries` iterations remaining. -/
def run_command (outcome : Nat → Outcome) (retries : Nat) : RunResult :=
  run_attempts outcome retries 0 retries

/-- Number of command executions recorded in a `run_command` result. -/
def execCount (r : RunResult) : Nat :=
  r.events.countP REvent.isExec

/-- Number of 2-second backoff sleeps recorded in a `run_command` result. -/
def sleepCount (r : RunResult) : Nat :=
  r.events.count REvent.sleep2

/-- Attempt `i` is actually executed by the loop iff no earlier attempt
exited with code 0 (the loop returns at the first success). -/
def executedB (outcome : Nat → Outcome) (i : Nat) : Bool :=
  (List.range i).all (fun j => !(outcome j).isSuccess)

/-- Variant of `executedB` relative to a starting attempt `a`: every
attempt in `[a, i)` is a non-success. -/
def executed_fromB (outcome : Nat → Outcome) (a i : Nat) : Bool :=
  (List.range' a (i - a)).all (fun j => !(outcome j).isSuccess)

/-- Oracle for `install_nodejs_restricted` (src/app.py lines 54-88):
`cmdExists c` is the result of `check_command_exists c` (a
`shutil.which` probe), and `methodResult i` is the boolean returned by
the `i`-th installation strategy (1-based, in the order
portable-binary, precompiled-binary, static-binary, from-source). -/
structure NodeEnv where
  cmdExists : String → Bool
  methodResult : Nat → Bool

/-- The `for i, method in enumerate(methods, 1)` loop of
`install_nodejs_restricted` (src/app.py lines 78-88): call each strategy
in order, return `True` at the first success; also return the list of
strategy indices that were invoked. -/
def try_methods (res : Nat → Bool) : List Nat → Bool × List Nat
  | [] => (false, [])
  | i :: rest =>
    if res i then (true, [i])
    else
      let r := try_methods res rest
      (r.1, i :: r.2)

/-- Model of `install_nodejs_restricted` (src/app.py lines 54-88): if both
`node` and `npm` already resolve on PATH, return `True` at once (invoking
no strategy, hence performing no download); otherwise try the four
strategies in order 1,2,3,4.  The second component records which
strategies were invoked. -/
def install_nodejs_restricted (env : NodeEnv) : Bool × List Nat :=
  if env.cmdExists ("node") && env.cmdExists ("npm") then (true, [])
  else try_methods env.methodResult [1, 2, 3, 4]

/-- Oracle for `install_python_dependencies_safe` (src/app.py lines
347-417): per package spec, the result of the `--prefer-binary` pip
attempt and of the plain pip attempt; the result of the extra
`--install-option="--without-cython"` attempt reserved for `lxml`; and
per git URL, the result of its single pip attempt. -/
structure DepEnv where
  upgradeOk : Bool
  preferBinary : String → Bool
  plain : String → Bool
  lxmlNoCython : Bool
  repoInstall : String → Bool

/-- The fixed package list of `install_python_dependencies_safe`
(src/app.py lines 357-367). -/
def packages : List String :=
  [ "flask", "aiofiles", "aiohttp", "asyncio", "beautifulsoup4",
    "dnspython", "future==0.18.3", "gitpython", "httpx[http2]",
    "heroku3", "hachoir", "motor==3.3.2", "psutil", "pykeyboard",
    "pymongo==4.6.3", "python-dotenv", "pyyaml==6.0.1", "requests",
    "qrcode", "tgcrypto", "gpytranslate", "googlesearch-python",
    "telegraph", "speedtest-cli", "unidecode", "urllib3", "wget",
    "yt-dlp", "bing-image-urls", "Cloudscraper",
    "pillow>=9.0.0", "py-tgcalls>=0.9.0", "SafoneAPI>=1.0.60",
    "youtube-search-python>=1.6.0", "spotipy>=2.0.0" ]

/-- The fixed git-repository list (src/app.py lines 370-374). -/
def git_repos : List String :=
  [ "git+https://github.com/KurimuzonAkuma/pyrogram@dev",
    "git+https://github.com/alexmercerind/youtube-search-python@main",
    "git+https://github.com/joetats/youtube_search@master" ]

/-- The fixed problem-package list, pairs of install spec and display
name (src/app.py lines 397-404). -/
def problem_packages : List (String × String) :=
  [ ("lxml", "lxml"),
    ("search_engine_parser", "search_engine_parser"),
    ("bing_image_downloader", "bing_image_downloader"),
    ("MukeshAPI", "MukeshAPI"),
    ("telethon==1.33.1", "telethon"),
    ("ffmpeg-python", "ffmpeg-python") ]

/-- Per-package install logic of the regular-package loop (src/app.py
lines 379-386): a `--prefer-binary` attempt, then a plain fallback. -/
def install_package (env : DepEnv) (p : String) : Bool :=
  if env.preferBinary p then true else env.plain p

/-- Per-package install logic of the problem-package loop (src/app.py
lines 406-411): `--prefer-binary` attempt, plain fallback, and for
`lxml` only a third attempt with `--install-option="--without-cython"`. -/
def install_problem_package (env : DepEnv) (cmd : String) : Bool :=
  if env.preferBinary cmd then true
  else if env.plain cmd then true
  else if cmd == "lxml" then env.lxmlNoCython
  else false

/-- One of the three `for` loops of `install_python_dependencies_safe`:
fold the per-item success into the running `all_success` flag and append
each processed item to the trace.  No loop body breaks or returns. -/
def process_items (f : String → Bool) (init : Bool × List String) (items : List String) :
    Bool × List String :=
  items.foldl (fun acc p => (acc.1 && f p, acc.2 ++ [p])) init

/-- Model of `install_python_dependencies_safe` (src/app.py lines
347-417): process every regular package, then every git repository, then
every problem package, accumulating `all_success`; the pip/setuptools
upgrade result is ignored.  The second component is the trace of items
processed. -/
def install_python_dependencies_safe (env : DepEnv) : Bool × List String :=
  let a := process_items (install_package env) (true, []) packages
  let b := process_items env.repoInstall (a.1, a.2) git_repos
  process_items (install_problem_package env) (b.1, b.2) (problem_packages.map Prod.fst)

/-- Oracle for `start_application` (src/app.py lines 419-466):
`fileExists p` is `os.path.exists(p)`, and `execResult args` is the final
return code of launching `args` (`none` models an exception raised by
`Popen` or the streaming loop). -/
structure AppEnv where
  fileExists : String → Bool
  execResult : List String → Option Int

/-- Python `token.startswith("-")` for the one-character prefix used at
src/app.py line 438: true iff the first character of the token is a
dash. -/
def starts_with_dash (s : String) : Bool :=
  match s.data with
  | [] => false
  | c :: _ => c == '-'

/-- Guard of the candidate loop (src/app.py lines 436-441): a candidate
is skipped exactly when it has more than one token, its second token does
not start with a dash, and that token does not name an existing file;
otherwise it is attempted. -/
def should_attempt (env : AppEnv) (ep : List String) : Bool :=
  match ep with
  | _ :: second :: _ =>
    if starts_with_dash second then true else env.fileExists second
  | _ => true

/-- The candidate loop of `start_application` (src/app.py lines 436-466):
skip a candidate failing the guard; otherwise launch it, returning `True`
on exit code 0 and moving to the next candidate on a non-zero exit or an
exception.  The second component records the candidates actually
launched. -/
def try_entry_points (env : AppEnv) : List (List String) → Bool × List (List String)
  | [] => (false, [])
  | ep :: rest =>
    if should_attempt env ep then
      match env.execResult ep with
      | some rc =>
        if rc = 0 then (true, [ep])
        else
          let r := try_entry_points env rest
          (r.1, ep :: r.2)
      | none =>
        let r := try_entry_points env rest
        (r.1, ep :: r.2)
    else try_entry_points env rest

/-- The fixed entry-point candidate list (src/app.py lines 426-434),
parametrised by `sys.executable`. -/
def entry_points (pyexe : String) : List (List String) :=
  [ [pyexe, "-m", "SONALI"],
    [pyexe, "main.py"],
    [pyexe, "app.py"],
    [pyexe, "bot.py"],
    [pyexe, "server.py"],
    [pyexe, "index.py"],
    [pyexe, "start.py"] ]

/-- Model of `start_application` (src/app.py lines 419-466). -/
def start_application (env : AppEnv) (pyexe : String) : Bool × List (List String) :=
  try_entry_points env (entry_points pyexe)

/-- Python `s.split(":")` on a string viewed as a list of characters:
always returns at least one (possibly empty) component. -/
def split_colon : List Char → List (List Char)
  | [] => [[]]
  | c :: cs =>
    if c = ':' then [] :: split_colon cs
    else
      match split_colon cs with
      | [] => [[c]]
      | h :: t => (c :: h) :: t

/-- Model of `add_to_path` (src/app.py lines 45-52).  Strings are lists
of characters; `path_exists` is the `os.path.exists` probe.  The PATH is
mutated only when the path is non-empty (Python truthiness), exists, and
is not already a `":"`-separated component; mutation prepends
`path + ":"`. -/
def add_to_path (path_exists : List Char → Bool) (p PATH : List Char) : Bool × List Char :=
  if p ≠ [] ∧ path_exists p = true ∧ p ∉ split_colon PATH then
    (true, p ++ ':' :: PATH)
  else (false, PATH)

/-- Oracle for `install_nodejs_from_source_simple` (src/app.py lines
292-345): whether the source download and the extraction complete
without raising, and the boolean results of the configure, make,
make-install commands and of the final `check_command_exists("node")`
probe. -/
structure SourceBuildEnv where
  downloadOk : Bool
  extractOk : Bool
  configureOk : Bool
  makeOk : Bool
  installOk : Bool
  nodeWorks : Bool

/-- The directory `os.chdir` moves to at src/app.py line 314: the
extracted source tree under the build directory. -/
def source_dir (home : String) : String :=
  home ++ "/.node-build/node-v20.17.0"

/-- Model of `install_nodejs_from_source_simple` (src/app.py lines
292-345), tracking the process working directory: an exception before the
`os.chdir(source_dir)` leaves the working directory at its initial value
`cwd0`; the fully successful path returns `True` from inside the source
tree; every non-raising failure path falls through to `os.chdir("/")`. -/
def install_nodejs_from_source_simple (env : SourceBuildEnv) (home cwd0 : String) :
    Bool × String :=
  if env.downloadOk = false then (false, cwd0)
  else if env.extractOk = false then (false, cwd0)
  else
    if env.configureOk then
      if env.makeOk then
        if env.installOk then
          if env.nodeWorks then (true, source_dir home)
          else (false, "/")
        else (false, "/")
      else (false, "/")
    else (false, "/")

/-- The four phases of the `__main__` block (src/app.py lines 468-497). -/
inductive Phase where
  | runtimeAcquisition
  | dependencyInstall
  | processLaunch
  | summary
deriving DecidableEq

/-- Observable events of the `__main__` block: entering a phase, the
per-phase sub-events, the summary report (with the three phase flags),
and the troubleshooting block printed only when the launch failed. -/
inductive MainEvent where
  | phase (p : Phase)
  | methodTried (i : Nat)
  | depItem (s : String)
  | execTried (args : List String)
  | summaryReport (nodeInstalled pythonSuccess appStarted : Bool)
  | troubleshootingTips
deriving DecidableEq

/-- Whether a main event is a phase marker. -/
def MainEvent.isPhase : MainEvent → Bool
  | .phase _ => true
  | _ => false

/-- Oracles for the whole run. -/
structure MainEnv where
  node : NodeEnv
  deps : DepEnv
  app : AppEnv
  pyexe : String

/-- Model of the `__main__` block (src/app.py lines 468-497): the three
phase functions are called unconditionally in sequence, then the summary
is printed; the troubleshooting tips (ending in an `ls -la`) are printed
only when the launch failed.  Returns the full event trace. -/
def main_run (env : MainEnv) : List MainEvent :=
  let node := install_nodejs_restricted env.node
  let py := install_python_dependencies_safe env.deps
  let app := start_application env.app env.pyexe
  [MainEvent.phase Phase.runtimeAcquisition] ++ node.2.map MainEvent.methodTried
    ++ [MainEvent.phase Phase.dependencyInstall] ++ py.2.map MainEvent.depItem
    ++ [MainEvent.phase Phase.processLaunch] ++ app.2.map MainEvent.execTried
    ++ [MainEvent.phase Phase.summary, MainEvent.summaryReport node.1 py.1 app.1]
    ++ (if app.1 then [] else [MainEvent.troubleshootingTips])

/-- Concrete oracle: every probed command already resolves on PATH and
no strategy is ever invoked. -/
def nodePresentEnv : NodeEnv :=
  ⟨fun _ => true, fun _ => false⟩

/-- Concrete oracle: nothing resolves on PATH and only strategy 3 (the
static binary) succeeds. -/
def nodeAbsentEnv : NodeEnv :=
  ⟨fun _ => false, fun i => i == 3⟩

/-- Concrete oracle for the launcher: no file exists and every launch
raises. -/
def noFilesEnv : AppEnv :=
  ⟨fun _ => false, fun _ => none⟩

/-- Concrete filesystem probe that reports every path as existing. -/
def alwaysExists : List Char → Bool :=
  fun _ => true

/-- A directory name containing a colon, legal in POSIX filesystems. -/
def colonDir : List Char :=
  ['a', ':', 'b']

/-- Concrete source-build oracle on which every step succeeds. -/
def sourceAllOk : SourceBuildEnv :=
  ⟨true, true, true, true, true, true⟩

theorem executed_fromB_self (outcome : Nat → Outcome) (a : Nat) :
    executed_fromB outcome a a = true := by
  simp [executed_fromB]

theorem executed_fromB_step (outcome : Nat → Outcome) {a i : Nat} (h : a < i) :
    executed_fromB outcome a i = (!(outcome a).isSuccess && executed_fromB outcome (a + 1) i) := by
  unfold executed_fromB
  have h1 : i - a = (i - (a + 1)) + 1 := by omega
  rw [h1, List.range'_succ, List.all_cons]

theorem executedB_eq (outcome : Nat → Outcome) (i : Nat) :
    executedB outcome i = executed_fromB outcome 0 i := by
  unfold executedB executed_fromB
  rw [List.range_eq_range']
  simp

theorem executed_fromB_shift (outcome : Nat → Outcome) {a i : Nat}
    (hns : (outcome a).isSuccess = false) (h : a < i) :
    executed_fromB outcome a i = executed_fromB outcome (a + 1) i := by
  rw [executed_fromB_step outcome h, hns]
  simp

theorem run_attempts_counts (outcome : Nat → Outcome) (R : Nat) :
    ∀ (n a : Nat), a + n = R →
      execCount (run_attempts outcome R a n) =
        ((List.range' a n).filter (fun i => executed_fromB outcome a i)).length
      ∧ sleepCount (run_attempts outcome R a n) =
        ((List.range' a n).filter
          (fun i => executed_fromB outcome a i && (decide (outcome i = Outcome.fail))
            && (decide (i + 1 < R)))).length := by
  intro n
  induction n with
  | zero =>
    intro a _
    simp [run_attempts, execCount, sleepCount]
  | succ n ih =>
    intro a hR
    have haR : a < R := by omega
    have ihs := ih (a + 1) (by omega)
    have ih1 : List.countP REvent.isExec (run_attempts outcome R (a + 1) n).events =
        ((List.range' (a + 1) n).filter (fun i => executed_fromB outcome (a + 1) i)).length :=
      ihs.1
    have ih2 : List.count REvent.sleep2 (run_attempts outcome R (a + 1) n).events =
        ((List.range' (a + 1) n).filter
          (fun i => executed_fromB outcome (a + 1) i && (decide (outcome i = Outcome.fail))
            && (decide (i + 1 < R)))).length :=
      ihs.2
    have tail_mem : ∀ i ∈ List.range' (a + 1) n, a + 1 ≤ i :=
      fun i hi => (List.mem_range'_1.mp hi).1
    rw [List.range'_succ]
    rcases hout : outcome a with out | _ | _ | _
    case success =>
      have tail_dead : ∀ i ∈ List.range' (a + 1) n, executed_fromB outcome a i = false := by
        intro i hi
        rw [executed_fromB_step outcome (show a < i by have := tail_mem i hi; omega)]
        simp [hout, Outcome.isSuccess]
      constructor
      · have hfil : (List.range' (a + 1) n).filter (fun i => executed_fromB outcome a i) = [] :=
          List.filter_eq_nil_iff.mpr (by intro i hi; simp [tail_dead i hi])
        simp [List.filter_cons, executed_fromB_self, hfil, run_attempts, hout, execCount,
          REvent.isExec]
      · have hfil : (List.range' (a + 1) n).filter
            (fun i => executed_fromB outcome a i && (decide (outcome i = Outcome.fail))
              && (decide (i + 1 < R))) = [] :=
          List.filter_eq_nil_iff.mpr (by intro i hi; simp [tail_dead i hi])
        simp [List.filter_cons, executed_fromB_self, hfil, run_attempts, hout, sleepCount]
    case fail =>
      have hns : (outcome a).isSuccess = false := by simp [hout, Outcome.isSuccess]
      have hshift : ∀ i ∈ List.range' (a + 1) n,
          executed_fromB outcome a i = executed_fromB outcome (a + 1) i :=
        fun i hi => executed_fromB_shift outcome hns (show a < i by have := tail_mem i hi; omega)
      have tail_exec : (List.range' (a + 1) n).filter (fun i => executed_fromB outcome a i)
          = (List.range' (a + 1) n).filter (fun i => executed_fromB outcome (a + 1) i) :=
        List.filter_congr (fun i hi => by rw [hshift i hi])
      have tail_sleep : (List.range' (a + 1) n).filter
            (fun i => executed_fromB outcome a i && (decide (outcome i = Outcome.fail))
              && (decide (i + 1 < R)))
          = (List.range' (a + 1) n).filter
            (fun i => executed_fromB outcome (a + 1) i && (decide (outcome i = Outcome.fail))
              && (decide (i + 1 < R))) :=
        List.filter_congr (fun i hi => by rw [hshift i hi])
      have hcond : (a < R - 1) ↔ (a + 1 < R) := by omega
      constructor
      · by_cases hlt : a < R - 1
        · simp [run_attempts, hout, hlt, execCount, List.countP_cons, REvent.isExec,
            List.filter_cons, executed_fromB_self, tail_exec, ih1, Nat.add_comm]
        · simp [run_attempts, hout, hlt, execCount, List.countP_cons, REvent.isExec,
            List.filter_cons, executed_fromB_self, tail_exec, ih1, Nat.add_comm]
      · by_cases hlt : a < R - 1
        · have h2 : a + 1 < R := hcond.mp hlt
          simp [run_attempts, hout, hlt, sleepCount, List.count_cons, List.filter_cons,
            executed_fromB_self, tail_sleep, ih2, h2, Nat.add_comm]
        · have h2 : ¬ (a + 1 < R) := fun h => hlt (hcond.mpr h)
          simp [run_attempts, hout, hlt, sleepCount, List.count_cons, List.filter_cons,
            executed_fromB_self, tail_sleep, ih2, h2]
    case timeout =>
      have hns : (outcome a).isSuccess = false := by simp [hout, Outcome.isSuccess]
      have hshift : ∀ i ∈ List.range' (a + 1) n,
          executed_fromB outcome a i = executed_fromB outcome (a + 1) i :=
        fun i hi => executed_fromB_shift outcome hns (show a < i by have := tail_mem i hi; omega)
      have tail_exec : (List.range' (a + 1) n).filter (fun i => executed_fromB outcome a i)
          = (List.range' (a + 1) n).filter (fun i => executed_fromB outcome (a + 1) i) :=
        List.filter_congr (fun i hi => by rw [hshift i hi])
      have tail_sleep : (List.range' (a + 1) n).filter
            (fun i => executed_fromB outcome a i && (decide (outcome i = Outcome.fail))
              && (decide (i + 1 < R)))
          = (List.range' (a + 1) n).filter
            (fun i => executed_fromB outcome (a + 1) i && (decide (outcome i = Outcome.fail))
              && (decide (i + 1 < R))) :=
        List.filter_congr (fun i hi => by rw [hshift i hi])
      constructor
      · simp [run_attempts, hout, execCount, List.countP_cons, REvent.isExec,
          List.filter_cons, executed_fromB_self, tail_exec, ih1, Nat.add_comm]
      · simp [run_attempts, hout, sleepCount, List.count_cons, List.filter_cons,
          executed_fromB_self, tail_sleep, ih2]
    case exc =>
      have hns : (outcome a).isSuccess = false := by simp [hout, Outcome.isSuccess]
      have hshift : ∀ i ∈ List.range' (a + 1) n,
          executed_fromB outcome a i = executed_fromB outcome (a + 1) i :=
        fun i hi => executed_fromB_shift outcome hns (show a < i by have := tail_mem i hi; omega)
      have tail_exec : (List.range' (a + 1) n).filter (fun i => executed_fromB outcome a i)
          = (List.range' (a + 1) n).filter (fun i => executed_fromB outcome (a + 1) i) :=
        List.filter_congr (fun i hi => by rw [hshift i hi])
      have tail_sleep : (List.range' (a + 1) n).filter
            (fun i => executed_fromB outcome a i && (decide (outcome i = Outcome.fail))
              && (decide (i + 1 < R)))
          = (List.range' (a + 1) n).filter
            (fun i => executed_fromB outcome (a + 1) i && (decide (outcome i = Outcome.fail))
              && (decide (i + 1 < R))) :=
        List.filter_congr (fun i hi => by rw [hshift i hi])
      constructor
      · simp [run_attempts, hout, execCount, List.countP_cons, REvent.isExec,
          List.filter_cons, executed_fromB_self, tail_exec, ih1, Nat.add_comm]
      · simp [run_attempts, hout, sleepCount, List.count_cons, List.filter_cons,
          executed_fromB_self, tail_sleep, ih2]

theorem run_attempts_fail_all (outcome : Nat → Outcome) (R : Nat) :
    ∀ (n a : Nat), (∀ i, a ≤ i → i < a + n → (outcome i).isSuccess = false) →
      (run_attempts outcome R a n).success = false ∧ (run_attempts outcome R a n).stdout = "" := by
  intro n
  induction n with
  | zero => intro a _; exact ⟨rfl, rfl⟩
  | succ n ih =>
    intro a h
    have hrest := ih (a + 1) (fun i h1 h2 => h i (by omega) (by omega))
    rcases hout : outcome a with out | _ | _ | _
    · have : (outcome a).isSuccess = false := h a (by omega) (by omega)
      rw [hout] at this
      simp [Outcome.isSuccess] at this
    · by_cases hlt : a < R - 1 <;> simp [run_attempts, hout, hlt, hrest.1, hrest.2]
    · simp [run_attempts, hout, hrest.1, hrest.2]
    · simp [run_attempts, hout, hrest.1, hrest.2]

theorem run_attempts_stdout_empty (outcome : Nat → Outcome) (R : Nat) :
    ∀ (n a : Nat), (run_attempts outcome R a n).success = false →
      (run_attempts outcome R a n).stdout = "" := by
  intro n
  induction n with
  | zero => intro a _; rfl
  | succ n ih =>
    intro a h
    rcases hout : outcome a with out | _ | _ | _
    · simp [run_attempts, hout] at h
    · by_cases hlt : a < R - 1 <;>
        (simp [run_attempts, hout, hlt] at h ⊢; exact ih (a + 1) h)
    · simp [run_attempts, hout] at h ⊢
      exact ih (a + 1) h
    · simp [run_attempts, hout] at h ⊢
      exact ih (a + 1) h

/-- Claim C1: a command failing on every attempt is executed exactly R
times and the runner returns a false success flag. -/
theorem c1_run_command_always_fail (outcome : Nat → Outcome) (R : Nat)
    (h : ∀ i, i < R → (outcome i).isSuccess = false) :
    (run_command outcome R).success = false ∧ execCount (run_command outcome R) = R := by
  constructor
  · exact (run_attempts_fail_all outcome R R 0 (fun i _ h2 => h i (by omega))).1
  · have hc := (run_attempts_counts outcome R R 0 (by omega)).1
    have hexec : ∀ i ∈ List.range' 0 R, executed_fromB outcome 0 i = true := by
      intro i hi
      have hiR : i < 0 + R := (List.mem_range'_1.mp hi).2
      apply List.all_eq_true.mpr
      intro j hj
      have hj2 : j < i := by
        have := List.mem_range'_1.mp hj
        omega
      simp [h j (by omega)]
    rw [run_command, hc, List.filter_eq_self.mpr hexec]
    simp

/-- Claim C1 witness at a concrete input. -/
theorem c1_witness :
    (run_command (fun _ => Outcome.fail) 3).success = false ∧
      execCount (run_command (fun _ => Outcome.fail) 3) = 3 :=
  c1_run_command_always_fail (fun _ => Outcome.fail) 3 (fun _ _ => rfl)

/-- Claim C2 counterexample: with two attempts that both time out, the
first timed-out attempt is failed and not last, yet no 2-second backoff
sleep occurs between the attempts. -/
theorem c2_counterexample :
    (run_command (fun _ => Outcome.timeout) 2).events = [REvent.exec 0, REvent.exec 1] ∧
      sleepCount (run_command (fun _ => Outcome.timeout) 2) = 0 := by
  decide

/-- Claim C2 amended: the 2-second backoff happens exactly after the
executed attempts that exit non-zero and are not the last attempt;
timed-out (and exception) attempts consume an attempt and the loop goes
on, but without any backoff. -/
theorem c2_amended_backoff_on_nonzero_exit_only (outcome : Nat → Outcome) (R : Nat) :
    sleepCount (run_command outcome R) =
      ((List.range R).filter
        (fun i => executedB outcome i && (decide (outcome i = Outcome.fail))
          && (decide (i + 1 < R)))).length
    ∧ execCount (run_command outcome R) =
      ((List.range R).filter (fun i => executedB outcome i)).length := by
  have hc := run_attempts_counts outcome R R 0 (by omega)
  rw [← List.range_eq_range'] at hc
  simp only [executedB_eq]
  exact ⟨hc.2, hc.1⟩

/-- Claim C9: whenever `run_command` reports failure, the stdout
component of the returned pair is the empty string. -/
theorem c9_failure_stdout_empty (outcome : Nat → Outcome) (R : Nat)
    (h : (run_command outcome R).success = false) :
    (run_command outcome R).stdout = "" :=
  run_attempts_stdout_empty outcome R R 0 h

/-- Claim C9 witness at a concrete input. -/
theorem c9_witness : (run_command (fun _ => Outcome.exc) 2).stdout = "" :=
  c9_failure_stdout_empty (fun _ => Outcome.exc) 2 (by decide)

/-- Claim C3: when both required runtime commands already resolve on
PATH, `install_nodejs_restricted` returns success immediately and the
list of invoked installation strategies is empty, so no download is
attempted. -/
theorem c3_already_installed_short_circuit (env : NodeEnv)
    (h1 : env.cmdExists ("node") = true) (h2 : env.cmdExists ("npm") = true) :
    install_nodejs_restricted env = (true, []) := by
  simp [install_nodejs_restricted, h1, h2]

/-- Claim C3 witness at a concrete oracle. -/
theorem c3_witness : install_nodejs_restricted nodePresentEnv = (true, []) :=
  c3_already_installed_short_circuit nodePresentEnv rfl rfl

/-- Claim C4: with the runtime absent, if strategy `i` (1-based) is the
first to succeed then `install_nodejs_restricted` returns success and the
invoked strategies are exactly `1, ..., i`: later strategies are never
invoked. -/
theorem c4_strategy_chain_short_circuit (env : NodeEnv) (i : Nat)
    (h0 : ¬(env.cmdExists ("node") = true ∧ env.cmdExists ("npm") = true))
    (h1 : 1 ≤ i) (h2 : i ≤ 4) (h3 : env.methodResult i = true)
    (h4 : ∀ j, 1 ≤ j → j < i → env.methodResult j = false) :
    install_nodejs_restricted env = (true, List.range' 1 i) := by
  have hcond : (env.cmdExists ("node") && env.cmdExists ("npm")) = false := by
    cases hn : env.cmdExists ("node") <;> cases hm : env.cmdExists ("npm") <;> simp_all
  interval_cases i
  · simp [install_nodejs_restricted, hcond, try_methods, h3, List.range']
  · have e1 := h4 1 (by omega) (by omega)
    simp [install_nodejs_restricted, hcond, try_methods, h3, e1, List.range']
  · have e1 := h4 1 (by omega) (by omega)
    have e2 := h4 2 (by omega) (by omega)
    simp [install_nodejs_restricted, hcond, try_methods, h3, e1, e2, List.range']
  · have e1 := h4 1 (by omega) (by omega)
    have e2 := h4 2 (by omega) (by omega)
    have e3 := h4 3 (by omega) (by omega)
    simp [install_nodejs_restricted, hcond, try_methods, h3, e1, e2, e3, List.range']

/-- Claim C4 witness: with only strategy 3 succeeding, exactly
strategies 1, 2, 3 are invoked and the chain reports success. -/
theorem c4_witness : install_nodejs_restricted nodeAbsentEnv = (true, [1, 2, 3]) :=
  c4_strategy_chain_short_circuit nodeAbsentEnv 3 (by decide) (by omega) (by omega)
    rfl (fun j hj1 hj2 => by interval_cases j <;> rfl)

theorem process_items_spec (f : String → Bool) :
    ∀ (items : List String) (init : Bool × List String),
      process_items f init items = (init.1 && items.all f, init.2 ++ items) := by
  intro items
  induction items with
  | nil => intro init; simp [process_items]
  | cons x xs ih =>
    intro init
    rw [show process_items f init (x :: xs)
        = process_items f (init.1 && f x, init.2 ++ [x]) xs from rfl, ih]
    simp [List.all_cons, Bool.and_assoc]

/-- Claim C5: the dependency installer processes every regular package,
every git repository and every problem package regardless of individual
failures, and the aggregate flag is true exactly when no item failed all
of its fallback attempts. -/
theorem c5_dependency_installer (env : DepEnv) :
    (install_python_dependencies_safe env).2 =
      packages ++ git_repos ++ problem_packages.map Prod.fst
    ∧ ((install_python_dependencies_safe env).1 = true ↔
        (∀ p ∈ packages, install_package env p = true)
        ∧ (∀ r ∈ git_repos, env.repoInstall r = true)
        ∧ (∀ q ∈ problem_packages, install_problem_package env q.1 = true)) := by
  unfold install_python_dependencies_safe
  rw [process_items_spec, process_items_spec, process_items_spec]
  refine ⟨by simp, ?_⟩
  simp only [Bool.true_and, Bool.and_eq_true, List.all_eq_true]
  constructor
  · rintro ⟨⟨ha, hb⟩, hc⟩
    refine ⟨ha, hb, fun q hq => ?_⟩
    exact hc q.1 (List.mem_map.mpr ⟨q, hq, rfl⟩)
  · rintro ⟨ha, hb, hc⟩
    refine ⟨⟨ha, hb⟩, fun c hcm => ?_⟩
    rcases List.mem_map.mp hcm with ⟨q, hq, rfl⟩
    exact hc q hq

/-- Claim C6: a candidate whose second token is not a flag is executed
only when that token names an existing file — when the file is absent the
candidate is skipped with no execution attempt — while a candidate whose
second token starts with a dash is always attempted when reached, with
no file check. -/
theorem c6_entry_point_file_guard (env : AppEnv) (x second : String)
    (tl : List String) (rest : List (List String)) :
    (starts_with_dash second = false → env.fileExists second = false →
      try_entry_points env ((x :: second :: tl) :: rest) = try_entry_points env rest)
    ∧ (starts_with_dash second = false → env.fileExists second = true →
      (try_entry_points env ((x :: second :: tl) :: rest)).2.head? = some (x :: second :: tl))
    ∧ (starts_with_dash second = true →
      (try_entry_points env ((x :: second :: tl) :: rest)).2.head? = some (x :: second :: tl)) := by
  refine ⟨fun h1 h2 => ?_, fun h1 h2 => ?_, fun h1 => ?_⟩
  · simp [try_entry_points, should_attempt, h1, h2]
  · simp only [try_entry_points, should_attempt, h1, h2, Bool.false_eq_true, if_false, if_true]
    cases hr : env.execResult (x :: second :: tl) with
    | none => simp
    | some rc =>
      by_cases hrc : rc = 0 <;> simp [hrc]
  · simp only [try_entry_points, should_attempt, h1, if_true]
    cases hr : env.execResult (x :: second :: tl) with
    | none => simp
    | some rc =>
      by_cases hrc : rc = 0 <;> simp [hrc]

/-- Claim C6 witness: with no file present, the file-based candidate is
skipped and the launcher proceeds exactly as on the remaining list. -/
theorem c6_witness :
    try_entry_points noFilesEnv [["python3", "main.py"]] = try_entry_points noFilesEnv [] :=
  (c6_entry_point_file_guard noFilesEnv "python3" "main.py" [] []).1 (by decide) rfl

/-- Claim C7: the run always performs the four phases in the fixed order
runtime acquisition, dependency install, process launch, summary — no
phase is skipped or repeated for any oracle — and the summary report is
always present in the trace. -/
theorem c7_phase_order (env : MainEnv) :
    (main_run env).filter MainEvent.isPhase =
      [MainEvent.phase Phase.runtimeAcquisition, MainEvent.phase Phase.dependencyInstall,
        MainEvent.phase Phase.processLaunch, MainEvent.phase Phase.summary]
    ∧ MainEvent.summaryReport (install_nodejs_restricted env.node).1
        (install_python_dependencies_safe env.deps).1
        (start_application env.app env.pyexe).1 ∈ main_run env := by
  have hm : ∀ (l : List Nat), (l.map MainEvent.methodTried).filter MainEvent.isPhase = [] := by
    intro l
    apply List.filter_eq_nil_iff.mpr
    intro a ha
    rcases List.mem_map.mp ha with ⟨i, _, rfl⟩
    simp [MainEvent.isPhase]
  have hd : ∀ (l : List String), (l.map MainEvent.depItem).filter MainEvent.isPhase = [] := by
    intro l
    apply List.filter_eq_nil_iff.mpr
    intro a ha
    rcases List.mem_map.mp ha with ⟨i, _, rfl⟩
    simp [MainEvent.isPhase]
  have he : ∀ (l : List (List String)),
      (l.map MainEvent.execTried).filter MainEvent.isPhase = [] := by
    intro l
    apply List.filter_eq_nil_iff.mpr
    intro a ha
    rcases List.mem_map.mp ha with ⟨i, _, rfl⟩
    simp [MainEvent.isPhase]
  constructor
  · unfold main_run
    by_cases happ : (start_application env.app env.pyexe).1 <;>
      simp [List.filter_append, hm, hd, he, happ, MainEvent.isPhase]
  · unfold main_run
    simp

theorem split_colon_prepend {p : List Char} (hp : ':' ∉ p) (rest : List Char) :
    split_colon (p ++ ':' :: rest) = p :: split_colon rest := by
  induction p with
  | nil => simp [split_colon]
  | cons c p ih =>
    have hc : c ≠ ':' := fun h => hp (h ▸ List.mem_cons_self c p)
    have ih2 := ih (fun h => hp (List.mem_cons_of_mem c h))
    simp only [List.cons_append, split_colon, if_neg hc]
    rw [show p.append (':' :: rest) = p ++ ':' :: rest from rfl, ih2]

/-- Claim C8 counterexample: for the existing directory name `a:b`
(which contains a colon), two successive `add_to_path` calls prepend it
twice, so a second call does not leave PATH unchanged. -/
theorem c8_counterexample :
    (add_to_path alwaysExists colonDir (add_to_path alwaysExists colonDir (['x'])).2).2 ≠
      (add_to_path alwaysExists colonDir (['x'])).2 := by
  decide

/-- Claim C8 amended: `add_to_path` mutates PATH only by prepending the
directory; if the directory is already a PATH component the call leaves
PATH unchanged and returns false; and for a directory containing no
colon — so that it is a single component after prepending — a second
call with the same directory leaves PATH unchanged, so calling twice
equals calling once. -/
theorem c8_add_to_path_amended (ex : List Char → Bool) (p PATH : List Char)
    (hp : ':' ∉ p) :
    (p ∈ split_colon PATH → add_to_path ex p PATH = (false, PATH))
    ∧ ((add_to_path ex p PATH).2 = PATH ∨ (add_to_path ex p PATH).2 = p ++ ':' :: PATH)
    ∧ (add_to_path ex p (add_to_path ex p PATH).2).2 = (add_to_path ex p PATH).2 := by
  by_cases hcond : p ≠ [] ∧ ex p = true ∧ p ∉ split_colon PATH
  · have h1 : add_to_path ex p PATH = (true, p ++ ':' :: PATH) := by
      unfold add_to_path
      rw [if_pos hcond]
    refine ⟨fun hmem => absurd hmem hcond.2.2, Or.inr (by rw [h1]), ?_⟩
    rw [h1]
    have hmem2 : p ∈ split_colon (p ++ ':' :: PATH) := by
      rw [split_colon_prepend hp PATH]
      exact List.mem_cons_self p _
    unfold add_to_path
    rw [if_neg (fun hc => hc.2.2 hmem2)]
  · have h1 : add_to_path ex p PATH = (false, PATH) := by
      unfold add_to_path
      rw [if_neg hcond]
    exact ⟨fun _ => h1, Or.inl (by rw [h1]), by rw [h1, h1]⟩

/-- Claim C8 witness: for a colon-free directory the second call leaves
PATH unchanged. -/
theorem c8_witness :
    (add_to_path alwaysExists (['a']) (add_to_path alwaysExists (['a']) (['x'])).2).2 =
      (add_to_path alwaysExists (['a']) (['x'])).2 :=
  (c8_add_to_path_amended alwaysExists (['a']) (['x']) (by decide)).2.2

/-- Claim C10: `install_nodejs_from_source_simple` never restores the
caller working directory: its success path returns with the working
directory at the extracted source tree, and every non-raising failure
path leaves it at the filesystem root. -/
theorem c10_source_build_cwd (env : SourceBuildEnv) (home cwd0 : String) :
    ((install_nodejs_from_source_simple env home cwd0).1 = true →
      (install_nodejs_from_source_simple env home cwd0).2 = source_dir home)
    ∧ (env.downloadOk = true → env.extractOk = true →
      (install_nodejs_from_source_simple env home cwd0).1 = false →
      (install_nodejs_from_source_simple env home cwd0).2 = ("/")) := by
  obtain ⟨d, e, c, m, i, n⟩ := env
  cases d <;> cases e <;> cases c <;> cases m <;> cases i <;> cases n <;>
    simp [install_nodejs_from_source_simple]

/-- Claim C10 witness: on the all-success oracle the function returns
success with the working directory left inside the source tree. -/
theorem c10_witness :
    (install_nodejs_from_source_simple sourceAllOk "/root" "/w").2 = source_dir "/root" :=
  (c10_source_build_cwd sourceAllOk "/root" "/w").1 rfl

end HostNew
